import Mathlib

/-!
# go-range-http-server: the request dispatcher and its two serving strategies

A shallow embedding of `httpserver.go`.

* The process-wide state of the program is the connection counter `connIdx`
  (an `int32`) and the standard logger, modelled as the list of messages
  handed to `log.Printf` (the logger's own timestamp is left out).
* An `http.ResponseWriter` is an interface of three methods (`Header`, `Write`,
  `WriteHeader`). Its implementation belongs to `net/http`, so the underlying
  sink is a parameter: a state `Sink σ` holding the header map that `Header()`
  returns, and a method table `SinkImpl σ` giving `WriteHeader` and `Write`.
* Code that is handed an `http.ResponseWriter` (an `http.Handler`,
  `http.ServeFile`, a `Server`) is represented by the tree of calls it makes
  on that writer, `Prog`; `Prog.run` executes such a tree against any
  implementation of the interface. The same tree can so be run against the
  bare sink and against the `ResponseWriter` wrapper of the program. A handler
  is taken to use its writer through these three methods only, and to return.
  A line that `net/http` logs under one of these calls is a `log` node of the tree.
* `time.Since(startTime).String()` is an input of the environment.
-/

namespace HttpServer

/-! ## Data model -/

/-- The bytes handed to one `Write` call (`[]byte`). -/
abbrev Bytes := List UInt8

/-- The `error` result of a write: `none` is `nil`. -/
abbrev Error := Option String

/-- The header map `http.Header` (`map[string][]string`), as an association list
with one entry per key. -/
structure Header where
  entries : List (String × List String)
  deriving DecidableEq, Repr

/-- The part of `*http.Request` the program reads (`Method`, `RemoteAddr`,
`RequestURI`), and the request header fields, which only the file-transfer
code of `net/http` reads. -/
structure Request where
  Method : String
  RemoteAddr : String
  RequestURI : String
  Header : Header
  deriving DecidableEq, Repr

/-- The state of an underlying `http.ResponseWriter`: the header map returned by
`Header()`, and whatever else the implementation keeps. -/
structure Sink (σ : Type) where
  header : Header
  state : σ

/-- The methods `WriteHeader` and `Write` of an underlying `http.ResponseWriter`. -/
structure SinkImpl (σ : Type) where
  WriteHeader : Sink σ → Int → Sink σ
  Write : Sink σ → Bytes → (Int × Error) × Sink σ

/-- The interface `http.ResponseWriter` as a method table over a state `ω`.
`Header` returns the header map and `setHeader` stores the map back after a
caller has mutated it in place. -/
structure Writer (ω : Type) where
  Header : ω → HttpServer.Header
  setHeader : ω → HttpServer.Header → ω
  WriteHeader : ω → Int → ω
  Write : ω → Bytes → (Int × Error) × ω

/-- The code of anything that is handed an `http.ResponseWriter`, as the tree of
the calls it makes: mutating or reading the map returned by `w.Header()`,
`w.WriteHeader(status)`, `w.Write(p)` (continuing with the two results), and
`log.Printf` on the standard logger. -/
inductive Prog where
  | done : Prog
  | header : (Header → Header) → Prog → Prog
  | readHeader : (Header → Prog) → Prog
  | writeHeader : Int → Prog → Prog
  | write : Bytes → (Int → Error → Prog) → Prog
  | log : String → Prog → Prog

/-- Run the calls of a program against an implementation of the interface. -/
def Prog.run {ω : Type} (W : Writer ω) : Prog → ω → List String → ω × List String
  | .done, w, lg => (w, lg)
  | .header f next, w, lg => next.run W (W.setHeader w (f (W.Header w))) lg
  | .readHeader k, w, lg => (k (W.Header w)).run W w lg
  | .writeHeader status next, w, lg => next.run W (W.WriteHeader w status) lg
  | .write p k, w, lg =>
      let res := W.Write w p
      (k res.1.1 res.1.2).run W res.2 lg
  | .log line next, w, lg => next.run W w (lg ++ [line])

/-! ## The standard library functions the program calls -/

/-- The map update of `Header.Add`: `h[key] = append(h[key], value)`. -/
def addEntry : List (String × List String) → String → String → List (String × List String)
  | [], key, value => [(key, [value])]
  | (k, vs) :: rest, key, value =>
      if k = key then (k, vs ++ [value]) :: rest else (k, vs) :: addEntry rest key value

/-- The method `Header.Add` of `net/http`: appends `value` to the values of `key`.
The two keys the program passes (`Content-Disposition`, `Server`) are in
canonical form already, so the canonicalisation of the key is the identity. -/
def Header.Add (h : Header) (key value : String) : Header :=
  ⟨addEntry h.entries key value⟩

/-- The method `Header.Values`: all values of a key, in the order they were added. -/
def Header.Values (h : Header) (key : String) : List String :=
  match h.entries.lookup key with
  | some vs => vs
  | none => []

end HttpServer

namespace path

/-- The loop of `path.Base` that strips trailing slashes. -/
def stripTrailingSlashes (p : List Char) : List Char :=
  (p.reverse.dropWhile (fun c => c == '/')).reverse

/-- The step of `path.Base` that keeps what follows the last slash
(`path[i+1:]` for `i = strings.LastIndex(path, "/")`, all of it when there is none). -/
def afterLastSlash (p : List Char) : List Char :=
  (p.reverse.takeWhile (fun c => c != '/')).reverse

/-- The function `path.Base` of the Go standard library: the last element of a path. -/
def Base (p : String) : String :=
  if p.data = [] then "."
  else
    let p1 := afterLastSlash (stripTrailingSlashes p.data)
    if p1 = [] then "/" else String.mk p1

end path

namespace HttpServer

/-! ## The program -/

/-- The constant `VERSION`. -/
def VERSION : String := "go-range-http-server/1.0"

/-- The value of an `int32` after wrap-around. -/
def wrapInt32 (x : Int) : Int := (x + 2147483648) % 4294967296 - 2147483648

/-- The call `atomic.AddInt32(addr, delta)`: one indivisible step that stores the new
value and returns it. The result is (stored value, returned value). -/
def AddInt32 (addr : Int) (delta : Int) : Int × Int :=
  let v := wrapInt32 (addr + delta)
  (v, v)

/-- The global variables the dispatcher touches: `connIdx` and the standard logger. -/
structure Globals where
  connIdx : Int
  log : List String
  deriving DecidableEq, Repr

/-- The interface `Server`: one method, `Serve(w, r)`. -/
structure Server where
  Serve : Request → Prog

/-- The type `MultiFileServer`: it holds an `http.Handler`. -/
structure MultiFileServer where
  h : Request → Prog

/-- The type `SingleFileServer`. -/
structure SingleFileServer where
  fullPath : String

/-- The method `MultiFileServer.Serve`: `s.h.ServeHTTP(w, r)`. -/
def MultiFileServer.Serve (s : MultiFileServer) (r : Request) : Prog :=
  s.h r

/-- The text `fmt.Sprintf("attachment; filename=\"%s\"", base)`. -/
def contentDisposition (base : String) : String :=
  "attachment; filename=\"" ++ base ++ "\""

/-- The method `SingleFileServer.Serve`; `ServeFile` is `http.ServeFile`, called with
the request and `s.fullPath`. -/
def SingleFileServer.Serve (ServeFile : Request → String → Prog) (s : SingleFileServer)
    (r : Request) : Prog :=
  .header (fun h => h.Add "Content-Disposition" (contentDisposition (path.Base s.fullPath)))
    (ServeFile r s.fullPath)

/-- A `MultiFileServer` as a `Server`. -/
def MultiFileServer.toServer (s : MultiFileServer) : Server := ⟨s.Serve⟩

/-- A `SingleFileServer` as a `Server`. -/
def SingleFileServer.toServer (ServeFile : Request → String → Prog) (s : SingleFileServer) :
    Server := ⟨s.Serve ServeFile⟩

/-- The function `NewMultiFileServer`; `FileServer path` is `http.FileServer(http.Dir(path))`. -/
def NewMultiFileServer (FileServer : String → Request → Prog) (path : String) :
    MultiFileServer := ⟨FileServer path⟩

/-- The function `NewSingleFileServer`. -/
def NewSingleFileServer (path : String) : SingleFileServer := ⟨path⟩

/-- The type `ResponseWriter`: the embedded `http.ResponseWriter` and the two captured
fields. -/
structure ResponseWriter (σ : Type) where
  ResponseWriter : Sink σ
  Status : Int
  Length : Int

/-- The method `ResponseWriter.WriteHeader`. -/
def ResponseWriter.WriteHeader {σ : Type} (impl : SinkImpl σ) (w : HttpServer.ResponseWriter σ)
    (status : Int) : HttpServer.ResponseWriter σ :=
  { w with Status := status, ResponseWriter := impl.WriteHeader w.ResponseWriter status }

/-- The method `ResponseWriter.Write`. -/
def ResponseWriter.Write {σ : Type} (impl : SinkImpl σ) (w : HttpServer.ResponseWriter σ) (p : Bytes) :
    (Int × Error) × HttpServer.ResponseWriter σ :=
  let res := impl.Write w.ResponseWriter p
  (res.1, { w with ResponseWriter := res.2, Length := res.1.1 })

/-- The underlying sink as an `http.ResponseWriter`. -/
def Sink.writer {σ : Type} (impl : SinkImpl σ) : Writer (Sink σ) where
  Header := fun w => w.header
  setHeader := fun w h => { w with header := h }
  WriteHeader := impl.WriteHeader
  Write := impl.Write

/-- The wrapper as an `http.ResponseWriter`: `Header` is promoted from the embedded
writer, `WriteHeader` and `Write` are the wrapper's own methods. -/
def ResponseWriter.writer {σ : Type} (impl : SinkImpl σ) : Writer (HttpServer.ResponseWriter σ) where
  Header := fun w => w.ResponseWriter.header
  setHeader := fun w h => { w with ResponseWriter := { w.ResponseWriter with header := h } }
  WriteHeader := ResponseWriter.WriteHeader impl
  Write := ResponseWriter.Write impl

/-- The type `Handler`. -/
structure Handler where
  Server : Server

/-- The message of the first `log.Printf` of `ServeHTTP`. -/
def startLine (idx : Int) (r : Request) : String :=
  "[" ++ toString idx ++ "] >>> " ++ r.Method ++ " - " ++ r.RemoteAddr ++ " - " ++ r.RequestURI

/-- The message of the last `log.Printf` of `ServeHTTP`. -/
def endLine (idx : Int) (status : Int) (timeDur : String) (length : Int) : String :=
  "[" ++ toString idx ++ "] <<< " ++ toString status ++ " " ++ timeDur ++ " " ++
    toString length ++ "bytes"

/-- The method `Handler.ServeHTTP`. `timeDur` is the text of
`time.Since(startTime).String()`. The result is the globals and the underlying sink
after the call. -/
def Handler.ServeHTTP {σ : Type} (impl : SinkImpl σ) (h : Handler) (timeDur : String)
    (g : Globals) (w : Sink σ) (r : Request) : Globals × Sink σ :=
  let idx := AddInt32 g.connIdx 1
  let log1 := g.log ++ [startLine idx.2 r]
  let wr : ResponseWriter σ := { ResponseWriter := w, Status := 0, Length := 0 }
  let wr1 := (ResponseWriter.writer impl).setHeader wr
    (((ResponseWriter.writer impl).Header wr).Add "Server" VERSION)
  let served := (h.Server.Serve r).run (ResponseWriter.writer impl) wr1 log1
  let log2 := served.2 ++ [endLine idx.2 served.1.Status timeDur served.1.Length]
  ({ connIdx := idx.1, log := log2 }, served.1.ResponseWriter)

/-! ## Sequences of calls and two concrete sinks -/

/-- A handler that makes the body writes `ps` one after the other. -/
def bodyWrites : List Bytes → Prog
  | [] => .done
  | p :: ps => .write p (fun _ _ => bodyWrites ps)

/-- A handler that makes the status writes `ss` one after the other. -/
def statusWrites : List Int → Prog
  | [] => .done
  | s :: ss => .writeHeader s (statusWrites ss)

/-- What the concrete sinks below keep: the status once it has been sent, and the body
bytes that were accepted. -/
structure Recorded where
  status : Option Int
  body : Bytes
  deriving DecidableEq, Repr

/-- The status a sink of `net/http` sends: the first `WriteHeader` fixes it. -/
def sendStatus (w : Sink Recorded) (status : Int) : Sink Recorded :=
  match w.state.status with
  | some _ => w
  | none => { w with state := { w.state with status := some status } }

/-- A sink that takes at most `cap` bytes of each write; a shorter count comes with an
error. As in `net/http`, a write before any `WriteHeader` sends status 200. -/
def cappedSink (cap : Nat) : SinkImpl Recorded where
  WriteHeader := sendStatus
  Write := fun w p =>
    let w1 := sendStatus w 200
    let taken := p.take cap
    (((taken.length : Int), if p.length ≤ cap then none else some "short write"),
      { w1 with state := { w1.state with body := w1.state.body ++ taken } })

/-- A sink that accepts every write in full. -/
def recorder : SinkImpl Recorded where
  WriteHeader := sendStatus
  Write := fun w p =>
    let w1 := sendStatus w 200
    (((p.length : Int), none), { w1 with state := { w1.state with body := w1.state.body ++ p } })

/-- A sink on which nothing has happened yet. -/
def freshSink : Sink Recorded := { header := ⟨[]⟩, state := { status := none, body := [] } }

/-- A wrapper around the fresh sink, as `ServeHTTP` creates it. -/
def freshWriter : HttpServer.ResponseWriter Recorded :=
  { ResponseWriter := freshSink, Status := 0, Length := 0 }

/-- The text of a Go string as bytes (`[]byte(s)`). -/
def textBytes (s : String) : Bytes := s.data.flatMap String.utf8EncodeChar

/-- The map update of `Header.Set`: `h[key] = []string{value}`. -/
def setEntry : List (String × List String) → String → String → List (String × List String)
  | [], key, value => [(key, [value])]
  | (k, vs) :: rest, key, value =>
      if k = key then (k, [value]) :: rest else (k, vs) :: setEntry rest key value

/-- The method `Header.Set` of `net/http`, for a key in canonical form. -/
def Header.Set (h : Header) (key value : String) : Header :=
  ⟨setEntry h.entries key value⟩

/-- The value of a hexadecimal digit (`unhex` of `net/url`). -/
def unhex (c : Char) : Option Nat :=
  if '0' ≤ c ∧ c ≤ '9' then some (c.toNat - '0'.toNat)
  else if 'a' ≤ c ∧ c ≤ 'f' then some (c.toNat - 'a'.toNat + 10)
  else if 'A' ≤ c ∧ c ≤ 'F' then some (c.toNat - 'A'.toNat + 10)
  else none

/-- The loop of `unescape` of `net/url` in path mode, reading left to right: `skip` is
the number of characters still to pass over because they were the two digits of an escape
already decoded. -/
def unescapeFrom : Nat → List Char → List Char
  | _, [] => []
  | skip + 1, _ :: rest => unescapeFrom skip rest
  | 0, c :: rest =>
      if c = '%' then
        match rest with
        | a :: b :: _ =>
            match unhex a, unhex b with
            | some x, some y => Char.ofNat (16 * x + y) :: unescapeFrom 2 rest
            | _, _ => c :: unescapeFrom 0 rest
        | _ => c :: unescapeFrom 0 rest
      else c :: unescapeFrom 0 rest

/-- The percent-decoding `net/url` applies to a path: `%XY` becomes the byte with that
code (kept here as the character with that code). The server answers a request line with
a malformed escape itself, so such a line never reaches a handler. -/
def unescape (s : List Char) : List Char := unescapeFrom 0 s

/-- The field `r.URL.Path` that the server of `net/http` fills in for a request line in
origin form: the request URI up to the query, percent-decoded. -/
def Request.URLPath (r : Request) : String :=
  String.mk (unescape (r.RequestURI.data.takeWhile (fun c => c != '?')))

/-- The field `r.URL.RawQuery`: what follows the first `?` of the request URI. -/
def Request.URLRawQuery (r : Request) : String :=
  String.mk ((r.RequestURI.data.dropWhile (fun c => c != '?')).drop 1)

/-- The function `http.Error`: two header fields, the status, and the message with a
newline as the body. -/
def http.Error (error : String) (code : Int) : Prog :=
  .header (fun h => h.Set "Content-Type" "text/plain; charset=utf-8")
    (.header (fun h => h.Set "X-Content-Type-Options" "nosniff")
      (.writeHeader code (.write (textBytes (error ++ "\n")) (fun _ _ => .done))))

/-- The function `containsDotDot` of `net/http`: some element of the path, split at
slashes and backslashes, is `..`. -/
def http.containsDotDot (v : String) : Bool :=
  (v.data.splitOnP (fun c => c == '/' || c == Char.ofNat 92)).contains ['.', '.']

/-- The function `localRedirect` of `net/http`: status 301 to `newPath`, with the query
of the request kept. -/
def http.localRedirect (r : Request) (newPath : String) : Prog :=
  .header (fun h => h.Set "Location"
      (if r.URLRawQuery = "" then newPath else newPath ++ "?" ++ r.URLRawQuery))
    (.writeHeader 301 .done)

/-- The function `http.ServeFile(w, r, name)` up to the point where it opens the file:
a request whose URL path has a `..` element is answered with status 400, one whose URL
path ends in `/index.html` is redirected to `./`. What it does from there on (opening
`name` and sending it, with ranges and conditions) depends on the file system and is the
parameter `sendFile`. -/
def http.ServeFile (sendFile : Request → String → Prog) (r : Request) (name : String) : Prog :=
  if http.containsDotDot r.URLPath then http.Error "invalid URL path" 400
  else if "/index.html".data.isSuffixOf r.URLPath.data then http.localRedirect r "./"
  else sendFile r name

/-- An instance of the parameter `sendFile`, for a file system that holds the one file
`/srv/report.pdf` with three bytes: that file is sent with status 200 (without a body for
a `HEAD` request), any other name is answered with status 404. -/
def sendReport (r : Request) (name : String) : Prog :=
  if name = "/srv/report.pdf" then
    .writeHeader 200 (if r.Method = "HEAD" then .done else .write [1, 2, 3] (fun _ _ => .done))
  else http.Error "404 page not found" 404

/-- An instance of an `http.Handler` for a directory that holds the one file `index.html`
with seven bytes: the URL path `/` is answered with status 200 and those bytes, any other
with status 404 and the 19 bytes of `404 page not found`. -/
def serveIndexOnly (r : Request) : Prog :=
  if r.URLPath = "/" then
    .writeHeader 200 (.write [60, 104, 116, 109, 108, 62, 10] (fun _ _ => .done))
  else http.Error "404 page not found" 404

/-- One write a handler made on its writer: a status, or body bytes together with the
count that `Write` returned for them. -/
inductive Call where
  | status (s : Int) : Call
  | body (p : Bytes) (n : Int) : Call
  deriving DecidableEq, Repr

/-- The status and body writes a program makes, in order, when it runs from `w`. -/
def Prog.calls {ω : Type} (W : Writer ω) : Prog → ω → List Call
  | .done, _ => []
  | .header f next, w => next.calls W (W.setHeader w (f (W.Header w)))
  | .readHeader k, w => (k (W.Header w)).calls W w
  | .writeHeader status next, w => .status status :: next.calls W (W.WriteHeader w status)
  | .write p k, w =>
      let res := W.Write w p
      .body p res.1.1 :: (k res.1.1 res.1.2).calls W res.2
  | .log _ next, w => next.calls W w

/-- The last status among the calls, `s0` when there is none. -/
def lastStatus : List Call → Int → Int
  | [], s0 => s0
  | .status s :: cs, _ => lastStatus cs s
  | .body _ _ :: cs, s0 => lastStatus cs s0

/-- The count of the last body write among the calls, `n0` when there is none. -/
def lastCount : List Call → Int → Int
  | [], n0 => n0
  | .status _ :: cs, n0 => lastCount cs n0
  | .body _ n :: cs, _ => lastCount cs n

/-- Calls of `Handler.ServeHTTP`, each given by its duration text, its sink and its
request, run in the order in which they increment the counter. The increment is one
indivisible step and nothing else in `ServeHTTP` writes `connIdx`, so the value a call
gets from its increment is the counter that the call leaves when the calls run in that
order. The result lists the globals after each call. -/
def serveAll {σ : Type} (impl : SinkImpl σ) (h : Handler) :
    List (String × Sink σ × Request) → Globals → List Globals
  | [], _ => []
  | c :: rest, g =>
      (Handler.ServeHTTP impl h c.1 g c.2.1 c.2.2).1
        :: serveAll impl h rest (Handler.ServeHTTP impl h c.1 g c.2.1 c.2.2).1

/-- The program makes no `WriteHeader` call, whatever the writer answers. -/
inductive Prog.NoStatusWrite : Prog → Prop
  | done : Prog.NoStatusWrite .done
  | header (f : Header → Header) (next : Prog) :
      Prog.NoStatusWrite next → Prog.NoStatusWrite (.header f next)
  | readHeader (k : Header → Prog) :
      (∀ h, Prog.NoStatusWrite (k h)) → Prog.NoStatusWrite (.readHeader k)
  | write (p : Bytes) (k : Int → Error → Prog) :
      (∀ n e, Prog.NoStatusWrite (k n e)) → Prog.NoStatusWrite (.write p k)
  | log (line : String) (next : Prog) :
      Prog.NoStatusWrite next → Prog.NoStatusWrite (.log line next)

/-! ## Lemmas on running a program -/

/-- Body writes leave the log alone. -/
theorem run_bodyWrites_log {ω : Type} (W : Writer ω) (ps : List Bytes) (w : ω)
    (lg : List String) : ((bodyWrites ps).run W w lg).2 = lg := by
  induction ps generalizing w with
  | nil => rfl
  | cons p ps ih => simp only [bodyWrites, Prog.run]; exact ih _

/-- Running two runs of body writes in a row. -/
theorem run_bodyWrites_append {ω : Type} (W : Writer ω) (ps qs : List Bytes) (w : ω)
    (lg : List String) :
    (bodyWrites (ps ++ qs)).run W w lg
      = (bodyWrites qs).run W ((bodyWrites ps).run W w lg).1 lg := by
  induction ps generalizing w with
  | nil => rfl
  | cons p ps ih => simp only [List.cons_append, bodyWrites, Prog.run]; exact ih _

/-- Status writes leave the log alone. -/
theorem run_statusWrites_log {ω : Type} (W : Writer ω) (ss : List Int) (w : ω)
    (lg : List String) : ((statusWrites ss).run W w lg).2 = lg := by
  induction ss generalizing w with
  | nil => rfl
  | cons s ss ih => simp only [statusWrites, Prog.run]; exact ih _

/-- Running two runs of status writes in a row. -/
theorem run_statusWrites_append {ω : Type} (W : Writer ω) (ss ts : List Int) (w : ω)
    (lg : List String) :
    (statusWrites (ss ++ ts)).run W w lg
      = (statusWrites ts).run W ((statusWrites ss).run W w lg).1 lg := by
  induction ss generalizing w with
  | nil => rfl
  | cons s ss ih => simp only [List.cons_append, statusWrites, Prog.run]; exact ih _

/-- The wrapper forwards every call: a program run on the wrapper leaves the embedded
sink where the same program run on that sink leaves it, and logs the same lines. -/
theorem run_wrapper {σ : Type} (impl : SinkImpl σ) (prog : Prog)
    (w : HttpServer.ResponseWriter σ) (lg : List String) :
    (prog.run (ResponseWriter.writer impl) w lg).1.ResponseWriter
        = (prog.run (Sink.writer impl) w.ResponseWriter lg).1
      ∧ (prog.run (ResponseWriter.writer impl) w lg).2
        = (prog.run (Sink.writer impl) w.ResponseWriter lg).2 := by
  induction prog generalizing w lg with
  | done => exact ⟨rfl, rfl⟩
  | header f next ih => simpa only [Prog.run] using ih _ lg
  | readHeader k ih => simpa only [Prog.run] using ih _ w lg
  | writeHeader status next ih => simpa only [Prog.run] using ih _ lg
  | write p k ih => simpa only [Prog.run] using ih _ _ _ lg
  | log line next ih => simpa only [Prog.run] using ih w _

/-- The writer a program leaves does not depend on the log it started with. -/
theorem run_fst_log {ω : Type} (W : Writer ω) (prog : Prog) (w : ω) (lg lg2 : List String) :
    (prog.run W w lg).1 = (prog.run W w lg2).1 := by
  induction prog generalizing w lg lg2 with
  | done => rfl
  | header f next ih => simpa only [Prog.run] using ih _ lg lg2
  | readHeader k ih => simpa only [Prog.run] using ih _ w lg lg2
  | writeHeader status next ih => simpa only [Prog.run] using ih _ lg lg2
  | write p k ih => simpa only [Prog.run] using ih _ _ _ lg lg2
  | log line next ih => simpa only [Prog.run] using ih w _ _

/-- A program only appends to the log: the lines it adds are those it logs when started
on an empty log. -/
theorem run_snd_log {ω : Type} (W : Writer ω) (prog : Prog) (w : ω) (lg : List String) :
    (prog.run W w lg).2 = lg ++ (prog.run W w []).2 := by
  induction prog generalizing w lg with
  | done => simp [Prog.run]
  | header f next ih => simpa only [Prog.run] using ih _ lg
  | readHeader k ih => simpa only [Prog.run] using ih _ w lg
  | writeHeader status next ih => simpa only [Prog.run] using ih _ lg
  | write p k ih => simpa only [Prog.run] using ih _ _ _ lg
  | log line next ih =>
      simp only [Prog.run]
      rw [ih w (lg ++ [line]), ih w ([] ++ [line])]
      simp

/-- Looking a key up after `Header.Add`. -/
theorem lookup_addEntry (es : List (String × List String)) (key value : String) :
    (addEntry es key value).lookup key = some ((es.lookup key).getD [] ++ [value]) := by
  induction es with
  | nil => simp [addEntry, List.lookup]
  | cons e es ih =>
      obtain ⟨k, vs⟩ := e
      by_cases hk : k = key
      · subst hk
        simp [addEntry, List.lookup]
      · have hk2 : (key == k) = false := by
          simp only [beq_eq_false_iff_ne, ne_eq]
          exact fun h => hk h.symm
        simp [addEntry, hk, List.lookup, hk2, ih]

/-- The value just added is among the values of its key. -/
theorem mem_Values_Add (h : Header) (key value : String) :
    value ∈ (h.Add key value).Values key := by
  simp [Header.Values, Header.Add, lookup_addEntry]

/-- Wrapping twice is wrapping once. -/
theorem wrapInt32_add (a b : Int) : wrapInt32 (wrapInt32 a + b) = wrapInt32 (a + b) := by
  unfold wrapInt32
  have h : (a + 2147483648) % 4294967296 - 2147483648 + b + 2147483648
      = (a + 2147483648) % 4294967296 + b := by ring
  rw [h, Int.emod_add_emod]
  congr 2
  ring

/-- Below `2 ^ 31` nothing wraps. -/
theorem wrapInt32_small (x : Int) (h0 : 0 ≤ x) (h1 : x < 2147483648) : wrapInt32 x = x := by
  unfold wrapInt32
  omega

/-- A program without status writes leaves the captured status alone. -/
theorem run_noStatusWrite {σ : Type} (impl : SinkImpl σ) (prog : Prog)
    (hns : prog.NoStatusWrite) (w : HttpServer.ResponseWriter σ) (lg : List String) :
    (prog.run (ResponseWriter.writer impl) w lg).1.Status = w.Status := by
  induction hns generalizing w lg with
  | done => rfl
  | header f next _ ih => simp only [Prog.run]; rw [ih]; rfl
  | readHeader k _ ih => simp only [Prog.run]; rw [ih]
  | write p k _ ih => simp only [Prog.run]; rw [ih]; rfl
  | log line next _ ih => simp only [Prog.run]; rw [ih]

/-- The method `Handler.ServeHTTP` step by step: the id is the incremented counter, the
strategy runs on a wrapper with zeroed capture whose sink carries the `Server` header,
and the end line is logged from the capture the strategy leaves. -/
theorem ServeHTTP_eq {σ : Type} (impl : SinkImpl σ) (h : Handler) (timeDur : String)
    (g : Globals) (w : Sink σ) (r : Request) :
    Handler.ServeHTTP impl h timeDur g w r =
      (⟨wrapInt32 (g.connIdx + 1),
        ((h.Server.Serve r).run (ResponseWriter.writer impl)
            ⟨{ w with header := w.header.Add "Server" VERSION }, 0, 0⟩
            (g.log ++ [startLine (wrapInt32 (g.connIdx + 1)) r])).2
          ++ [endLine (wrapInt32 (g.connIdx + 1))
              ((h.Server.Serve r).run (ResponseWriter.writer impl)
                ⟨{ w with header := w.header.Add "Server" VERSION }, 0, 0⟩
                (g.log ++ [startLine (wrapInt32 (g.connIdx + 1)) r])).1.Status
              timeDur
              ((h.Server.Serve r).run (ResponseWriter.writer impl)
                ⟨{ w with header := w.header.Add "Server" VERSION }, 0, 0⟩
                (g.log ++ [startLine (wrapInt32 (g.connIdx + 1)) r])).1.Length]⟩,
       ((h.Server.Serve r).run (ResponseWriter.writer impl)
            ⟨{ w with header := w.header.Add "Server" VERSION }, 0, 0⟩
            (g.log ++ [startLine (wrapInt32 (g.connIdx + 1)) r])).1.ResponseWriter) :=
  rfl

/-- The log after `Handler.ServeHTTP`: the log before, the start line, the lines logged
while the strategy ran, the end line with the capture the strategy left. -/
theorem ServeHTTP_log {σ : Type} (impl : SinkImpl σ) (h : Handler) (timeDur : String)
    (g : Globals) (w : Sink σ) (r : Request) :
    (Handler.ServeHTTP impl h timeDur g w r).1.log
      = g.log ++ (startLine (wrapInt32 (g.connIdx + 1)) r
          :: (((h.Server.Serve r).run (ResponseWriter.writer impl)
                ⟨{ w with header := w.header.Add "Server" VERSION }, 0, 0⟩ []).2
              ++ [endLine (wrapInt32 (g.connIdx + 1))
                  ((h.Server.Serve r).run (ResponseWriter.writer impl)
                    ⟨{ w with header := w.header.Add "Server" VERSION }, 0, 0⟩ []).1.Status
                  timeDur
                  ((h.Server.Serve r).run (ResponseWriter.writer impl)
                    ⟨{ w with header := w.header.Add "Server" VERSION }, 0, 0⟩ []).1.Length])) := by
  rw [ServeHTTP_eq]
  simp only
  rw [run_snd_log,
    run_fst_log _ _ _ (g.log ++ [startLine (wrapInt32 (g.connIdx + 1)) r]) []]
  simp only [List.append_assoc, List.singleton_append, List.cons_append, List.nil_append]

/-- The counter after `Handler.ServeHTTP`. -/
theorem ServeHTTP_connIdx {σ : Type} (impl : SinkImpl σ) (h : Handler) (timeDur : String)
    (g : Globals) (w : Sink σ) (r : Request) :
    (Handler.ServeHTTP impl h timeDur g w r).1.connIdx = wrapInt32 (g.connIdx + 1) :=
  rfl

/-- The counter after call number `k + 1` of a run of calls is the counter before the
run plus `k + 1`, wrapped. -/
theorem serveAll_connIdx {σ : Type} (impl : SinkImpl σ) (h : Handler)
    (calls : List (String × Sink σ × Request)) (g : Globals) :
    (serveAll impl h calls g).map Globals.connIdx
      = (List.range calls.length).map
          (fun (k : Nat) => wrapInt32 (g.connIdx + ((k : Int) + 1))) := by
  induction calls generalizing g with
  | nil => rfl
  | cons c rest ih =>
      simp only [serveAll, List.map_cons, List.length_cons, List.range_succ_eq_map,
        List.map_map]
      rw [ih, ServeHTTP_connIdx]
      congr 1
      simp
      intro k _
      rw [wrapInt32_add]
      congr 1
      ring

/-- The capture a program leaves in the wrapper is read off the calls it makes on the
sink: the last status written and the count of the last body write. -/
theorem run_capture {σ : Type} (impl : SinkImpl σ) (prog : Prog)
    (w : HttpServer.ResponseWriter σ) (lg : List String) :
    (prog.run (ResponseWriter.writer impl) w lg).1.Status
        = lastStatus (prog.calls (Sink.writer impl) w.ResponseWriter) w.Status
      ∧ (prog.run (ResponseWriter.writer impl) w lg).1.Length
        = lastCount (prog.calls (Sink.writer impl) w.ResponseWriter) w.Length := by
  induction prog generalizing w lg with
  | done => exact ⟨rfl, rfl⟩
  | header f next ih => simpa only [Prog.run, Prog.calls] using ih _ lg
  | readHeader k ih => simpa only [Prog.run, Prog.calls] using ih _ w lg
  | writeHeader status next ih =>
      simpa only [Prog.run, Prog.calls, lastStatus, lastCount] using ih _ lg
  | write p k ih =>
      simpa only [Prog.run, Prog.calls, lastStatus, lastCount] using ih _ _ _ lg
  | log line next ih => simpa only [Prog.run, Prog.calls] using ih w _

/-! ## The claims -/

/-- C1: after any non-empty sequence of body writes through the wrapper, `Length` is the
count the underlying sink returned for the last write alone, where the sink is in the
state the earlier writes left it in. On a sink that accepts everything, writes of 5 and
then 7 bytes leave `Length = 7`, not 12; on a sink that takes at most 6 bytes of a
write, the second write is cut short and `Length` is the 6 the sink reported. -/
theorem C1_length_is_last_write_count :
    (∀ (σ : Type) (impl : SinkImpl σ) (w : HttpServer.ResponseWriter σ) (ps : List Bytes)
        (p : Bytes) (lg : List String),
        ((bodyWrites (ps ++ [p])).run (ResponseWriter.writer impl) w lg).1.Length
          = (impl.Write ((bodyWrites ps).run (Sink.writer impl) w.ResponseWriter lg).1 p).1.1)
    ∧ ((bodyWrites [[1, 2, 3, 4, 5], [1, 2, 3, 4, 5, 6, 7]]).run
          (ResponseWriter.writer recorder) freshWriter []).1.Length = 7
    ∧ ((bodyWrites [[1, 2, 3, 4, 5], [1, 2, 3, 4, 5, 6, 7]]).run
          (ResponseWriter.writer recorder) freshWriter []).1.Length ≠ 5 + 7
    ∧ ((bodyWrites [[1, 2, 3, 4, 5], [1, 2, 3, 4, 5, 6, 7]]).run
          (ResponseWriter.writer (cappedSink 6)) freshWriter []).1.Length = 6 := by
  refine ⟨?_, by decide, by decide, by decide⟩
  intro σ impl w ps p lg
  rw [run_bodyWrites_append]
  simp only [bodyWrites, Prog.run, ResponseWriter.writer, ResponseWriter.Write]
  have hsim := (run_wrapper impl (bodyWrites ps) w lg).1
  simp only [ResponseWriter.writer] at hsim
  rw [hsim]

/-- C2, as stated, fails: after the status writes 200 and then 404 the captured `Status`
is 404, not the first status 200. -/
theorem C2_first_status_does_not_win :
    ((statusWrites [200, 404]).run (ResponseWriter.writer recorder) freshWriter []).1.Status
        = 404
      ∧ ((statusWrites [200, 404]).run (ResponseWriter.writer recorder) freshWriter []).1.Status
        ≠ 200 := by
  decide

/-- C2, amended: after any non-empty sequence of status writes through the wrapper, the
captured `Status` is the last status written. -/
theorem C2_status_is_last_status_written {σ : Type} (impl : SinkImpl σ)
    (w : HttpServer.ResponseWriter σ) (ss : List Int) (s : Int) (lg : List String) :
    ((statusWrites (ss ++ [s])).run (ResponseWriter.writer impl) w lg).1.Status = s := by
  rw [run_statusWrites_append]
  rfl

/-- C3: whatever the request and the configured path, `SingleFileServer.Serve` hands the
file-transfer primitive a writer whose headers hold, under `Content-Disposition`, exactly
the text `attachment; filename="B"` with `B` the base name of the path; for the path
`/path/to/report.pdf` that text is `attachment; filename="report.pdf"`. -/
theorem C3_content_disposition_before_transfer :
    (∀ (σ : Type) (impl : SinkImpl σ) (s : SingleFileServer) (w : HttpServer.ResponseWriter σ),
      ∃ w1 : HttpServer.ResponseWriter σ,
        ("attachment; filename=\"" ++ path.Base s.fullPath ++ "\"")
            ∈ w1.ResponseWriter.header.Values "Content-Disposition"
        ∧ ∀ (ServeFile : Request → String → Prog) (r : Request) (lg : List String),
            (s.Serve ServeFile r).run (ResponseWriter.writer impl) w lg
              = (ServeFile r s.fullPath).run (ResponseWriter.writer impl) w1 lg)
    ∧ "attachment; filename=\"" ++ path.Base "/path/to/report.pdf" ++ "\""
        = "attachment; filename=\"report.pdf\"" := by
  refine ⟨?_, by decide⟩
  intro σ impl s w
  refine ⟨(ResponseWriter.writer impl).setHeader w
    (((ResponseWriter.writer impl).Header w).Add "Content-Disposition"
      (contentDisposition (path.Base s.fullPath))), ?_, ?_⟩
  · exact mem_Values_Add _ _ _
  · intro ServeFile r lg
    rfl

/-- C5: for every request and every strategy, `Handler.ServeHTTP` runs the strategy on a
writer whose sink headers already hold `go-range-http-server/1.0` under `Server`. -/
theorem C5_server_header_before_strategy {σ : Type} (impl : SinkImpl σ) (timeDur : String)
    (g : Globals) (w : Sink σ) (r : Request) :
    ∃ wr1 : HttpServer.ResponseWriter σ,
      "go-range-http-server/1.0" ∈ wr1.ResponseWriter.header.Values "Server"
      ∧ ∀ h : Handler,
          (Handler.ServeHTTP impl h timeDur g w r).2
            = ((h.Server.Serve r).run (ResponseWriter.writer impl) wr1
                (g.log ++ [startLine (AddInt32 g.connIdx 1).2 r])).1.ResponseWriter := by
  refine ⟨⟨{ w with header := w.header.Add "Server" VERSION }, 0, 0⟩, ?_, ?_⟩
  · exact mem_Values_Add _ _ _
  · intro h
    rfl

/-- C8, as stated, fails: for the strategy that does nothing, the headers of the sink
after `Handler.ServeHTTP` are not those the strategy leaves when run on the sink itself,
which stay empty. -/
theorem C8_dispatcher_changes_the_headers :
    (Handler.ServeHTTP recorder ⟨⟨fun _ => Prog.done⟩⟩ "1ms" ⟨0, []⟩ freshSink
        ⟨"GET", "127.0.0.1:51560", "/", ⟨[]⟩⟩).2.header
      ≠ (Prog.done.run (Sink.writer recorder) freshSink []).1.header
    ∧ (Prog.done.run (Sink.writer recorder) freshSink []).1.header = ⟨[]⟩ := by
  decide

/-- C8, amended: the sink after `Handler.ServeHTTP` is the sink the strategy leaves when
it is run directly on that sink with the `Server` header added to it. -/
theorem C8_dispatcher_only_adds_server_header {σ : Type} (impl : SinkImpl σ) (h : Handler)
    (timeDur : String) (g : Globals) (w : Sink σ) (r : Request) (lg : List String) :
    (Handler.ServeHTTP impl h timeDur g w r).2
      = ((h.Server.Serve r).run (Sink.writer impl)
          { w with header := w.header.Add "Server" VERSION } lg).1 := by
  rw [ServeHTTP_eq]
  simp only
  rw [(run_wrapper impl _ _ _).1]
  exact run_fst_log _ _ _ _ _

/-- C10: body writes never change the captured status, and the capture starts at
`Status = 0`, `Length = 0`: a strategy that makes no status write is logged with status
0, a strategy that does nothing with `0 <duration> 0bytes`, and one write of 7 bytes
without a status write gives the documented line `[1] <<< 0 1.192874ms 7bytes`. -/
theorem C10_capture_starts_at_zero {σ : Type} (impl : SinkImpl σ) (h : Handler)
    (timeDur : String) (g : Globals) (w : Sink σ) (r : Request)
    (hns : (h.Server.Serve r).NoStatusWrite) :
    (∀ (wr : HttpServer.ResponseWriter σ) (p : Bytes),
        (ResponseWriter.Write impl wr p).2.Status = wr.Status)
    ∧ (∃ length : Int,
        (Handler.ServeHTTP impl h timeDur g w r).1.log.getLast?
          = some (endLine (AddInt32 g.connIdx 1).2 0 timeDur length))
    ∧ (Handler.ServeHTTP impl ⟨⟨fun _ => Prog.done⟩⟩ timeDur g w r).1.log
        = g.log ++ [startLine (AddInt32 g.connIdx 1).2 r,
            endLine (AddInt32 g.connIdx 1).2 0 timeDur 0]
    ∧ (Handler.ServeHTTP recorder
          ⟨⟨fun _ => .write [60, 104, 116, 109, 108, 62, 10] (fun _ _ => .done)⟩⟩
          "1.192874ms" ⟨0, []⟩ freshSink ⟨"GET", "127.0.0.1:51560", "/", ⟨[]⟩⟩).1.log
        = ["[1] >>> GET - 127.0.0.1:51560 - /", "[1] <<< 0 1.192874ms 7bytes"] := by
  refine ⟨fun _ _ => rfl, ?_, ?_, by decide⟩
  · refine ⟨((h.Server.Serve r).run (ResponseWriter.writer impl)
      ⟨{ w with header := w.header.Add "Server" VERSION }, 0, 0⟩
      (g.log ++ [startLine (wrapInt32 (g.connIdx + 1)) r])).1.Length, ?_⟩
    rw [ServeHTTP_eq]
    simp only [List.getLast?_append, List.getLast?_singleton, AddInt32]
    rw [run_noStatusWrite impl _ hns]
    rfl
  · rw [ServeHTTP_eq]
    simp only [Prog.run, AddInt32, List.append_assoc, List.singleton_append]

/-- Witness for C10: a strategy that only writes 7 bytes of body. -/
theorem C10_capture_starts_at_zero_witness :
    (Prog.write [60, 104, 116, 109, 108, 62, 10] (fun _ _ => Prog.done)).NoStatusWrite
    ∧ ((∀ (wr : HttpServer.ResponseWriter Recorded) (p : Bytes),
        (ResponseWriter.Write recorder wr p).2.Status = wr.Status)
      ∧ (∃ length : Int,
        (Handler.ServeHTTP recorder
            ⟨⟨fun _ => .write [60, 104, 116, 109, 108, 62, 10] (fun _ _ => .done)⟩⟩
            "1.192874ms" ⟨0, []⟩ freshSink
            ⟨"GET", "127.0.0.1:51560", "/", ⟨[]⟩⟩).1.log.getLast?
          = some (endLine (AddInt32 0 1).2 0 "1.192874ms" length))
      ∧ (Handler.ServeHTTP recorder ⟨⟨fun _ => Prog.done⟩⟩ "1.192874ms" ⟨0, []⟩ freshSink
            ⟨"GET", "127.0.0.1:51560", "/", ⟨[]⟩⟩).1.log
          = [] ++ [startLine (AddInt32 0 1).2 ⟨"GET", "127.0.0.1:51560", "/", ⟨[]⟩⟩,
              endLine (AddInt32 0 1).2 0 "1.192874ms" 0]
      ∧ (Handler.ServeHTTP recorder
            ⟨⟨fun _ => .write [60, 104, 116, 109, 108, 62, 10] (fun _ _ => .done)⟩⟩
            "1.192874ms" ⟨0, []⟩ freshSink ⟨"GET", "127.0.0.1:51560", "/", ⟨[]⟩⟩).1.log
          = ["[1] >>> GET - 127.0.0.1:51560 - /", "[1] <<< 0 1.192874ms 7bytes"]) :=
  ⟨Prog.NoStatusWrite.write _ _ (fun _ _ => Prog.NoStatusWrite.done),
    C10_capture_starts_at_zero recorder
      ⟨⟨fun _ => .write [60, 104, 116, 109, 108, 62, 10] (fun _ _ => .done)⟩⟩
      "1.192874ms" ⟨0, []⟩ freshSink ⟨"GET", "127.0.0.1:51560", "/", ⟨[]⟩⟩
      (Prog.NoStatusWrite.write _ _ (fun _ _ => Prog.NoStatusWrite.done))⟩

/-- C4, as stated, fails: `SingleFileServer.Serve` passes the request on to
`http.ServeFile`, which reads its URL path. For the requests `/`, `/foo/index.html` and
`/a/../b`, which differ only in their URI, the sink gets status 200 with the file, status
301 without a body, and status 400 with an error text. -/
theorem C4_response_depends_on_uri :
    (((SingleFileServer.mk "/srv/report.pdf").Serve (http.ServeFile sendReport)
          ⟨"GET", "127.0.0.1:51560", "/", ⟨[]⟩⟩).run
        (Sink.writer recorder) freshSink []).1.state = ⟨some 200, [1, 2, 3]⟩
    ∧ (((SingleFileServer.mk "/srv/report.pdf").Serve (http.ServeFile sendReport)
          ⟨"GET", "127.0.0.1:51560", "/foo/index.html", ⟨[]⟩⟩).run
        (Sink.writer recorder) freshSink []).1.state = ⟨some 301, []⟩
    ∧ (((SingleFileServer.mk "/srv/report.pdf").Serve (http.ServeFile sendReport)
          ⟨"GET", "127.0.0.1:51560", "/a/../b", ⟨[]⟩⟩).run
        (Sink.writer recorder) freshSink []).1.state
        = ⟨some 400, textBytes "invalid URL path\n"⟩ := by
  decide

/-- C4, amended: for every request, `SingleFileServer.Serve` does what the file-transfer
primitive does for that request and `fullPath`, started on the writer with the text
`attachment; filename="B"` added under `Content-Disposition`; so whenever the primitive
does the same for two requests, `Serve` writes the same response for both. -/
theorem C4_serve_adds_header_then_calls_primitive {ω : Type} (W : Writer ω)
    (ServeFile : Request → String → Prog) (s : SingleFileServer) (r1 r2 : Request)
    (hprim : ∀ (w : ω) (lg : List String),
      (ServeFile r1 s.fullPath).run W w lg = (ServeFile r2 s.fullPath).run W w lg)
    (w : ω) (lg : List String) :
    (s.Serve ServeFile r1).run W w lg
        = (ServeFile r1 s.fullPath).run W
            (W.setHeader w ((W.Header w).Add "Content-Disposition"
              ("attachment; filename=\"" ++ path.Base s.fullPath ++ "\""))) lg
    ∧ (s.Serve ServeFile r2).run W w lg
        = (ServeFile r2 s.fullPath).run W
            (W.setHeader w ((W.Header w).Add "Content-Disposition"
              ("attachment; filename=\"" ++ path.Base s.fullPath ++ "\""))) lg
    ∧ (s.Serve ServeFile r1).run W w lg = (s.Serve ServeFile r2).run W w lg := by
  have hrun : ∀ r : Request, (s.Serve ServeFile r).run W w lg
      = (ServeFile r s.fullPath).run W
          (W.setHeader w ((W.Header w).Add "Content-Disposition"
            ("attachment; filename=\"" ++ path.Base s.fullPath ++ "\""))) lg :=
    fun _ => rfl
  refine ⟨hrun r1, hrun r2, ?_⟩
  rw [hrun r1, hrun r2]
  exact hprim _ lg

/-- Witness for C4: `http.ServeFile` over a file system with the one file, and the
requests `/` and `/whatever`, which it treats alike. -/
theorem C4_serve_adds_header_then_calls_primitive_witness :
    (∀ (w : Sink Recorded) (lg : List String),
      (http.ServeFile sendReport ⟨"GET", "127.0.0.1:51560", "/", ⟨[]⟩⟩
          "/srv/report.pdf").run (Sink.writer recorder) w lg
        = (http.ServeFile sendReport ⟨"GET", "127.0.0.1:51560", "/whatever", ⟨[]⟩⟩
            "/srv/report.pdf").run (Sink.writer recorder) w lg)
    ∧ (((SingleFileServer.mk "/srv/report.pdf").Serve (http.ServeFile sendReport)
          ⟨"GET", "127.0.0.1:51560", "/", ⟨[]⟩⟩).run (Sink.writer recorder) freshSink []
        = (http.ServeFile sendReport ⟨"GET", "127.0.0.1:51560", "/", ⟨[]⟩⟩
            (SingleFileServer.mk "/srv/report.pdf").fullPath).run (Sink.writer recorder)
            ((Sink.writer recorder).setHeader freshSink
              (((Sink.writer recorder).Header freshSink).Add "Content-Disposition"
                ("attachment; filename=\""
                  ++ path.Base (SingleFileServer.mk "/srv/report.pdf").fullPath ++ "\""))) []
      ∧ ((SingleFileServer.mk "/srv/report.pdf").Serve (http.ServeFile sendReport)
          ⟨"GET", "127.0.0.1:51560", "/whatever", ⟨[]⟩⟩).run (Sink.writer recorder)
            freshSink []
        = (http.ServeFile sendReport ⟨"GET", "127.0.0.1:51560", "/whatever", ⟨[]⟩⟩
            (SingleFileServer.mk "/srv/report.pdf").fullPath).run (Sink.writer recorder)
            ((Sink.writer recorder).setHeader freshSink
              (((Sink.writer recorder).Header freshSink).Add "Content-Disposition"
                ("attachment; filename=\""
                  ++ path.Base (SingleFileServer.mk "/srv/report.pdf").fullPath ++ "\""))) []
      ∧ ((SingleFileServer.mk "/srv/report.pdf").Serve (http.ServeFile sendReport)
          ⟨"GET", "127.0.0.1:51560", "/", ⟨[]⟩⟩).run (Sink.writer recorder) freshSink []
        = ((SingleFileServer.mk "/srv/report.pdf").Serve (http.ServeFile sendReport)
          ⟨"GET", "127.0.0.1:51560", "/whatever", ⟨[]⟩⟩).run (Sink.writer recorder)
            freshSink []) :=
  ⟨fun _ _ => rfl,
    C4_serve_adds_header_then_calls_primitive (Sink.writer recorder)
      (http.ServeFile sendReport) ⟨"/srv/report.pdf"⟩ ⟨"GET", "127.0.0.1:51560", "/", ⟨[]⟩⟩
      ⟨"GET", "127.0.0.1:51560", "/whatever", ⟨[]⟩⟩ (fun _ _ => rfl) freshSink []⟩

/-- C6, as stated, fails: when `Handler.ServeHTTP` is called `2 ^ 31` times starting from
the counter 0, call number `2 ^ 31` leaves the id `-2147483648`, below the id `2147483647`
of the call before it; and call number `2 ^ 32 + 1` gets the id 1 again, the id of the
first call. -/
theorem C6_ids_wrap_after_two_pow_31_requests :
    ((serveAll recorder ⟨⟨fun _ => Prog.done⟩⟩
          (List.replicate 2147483648
            ("1ms", freshSink, ⟨"GET", "127.0.0.1:51560", "/", ⟨[]⟩⟩))
          ⟨0, []⟩).map Globals.connIdx)[2147483647]? = some (-2147483648)
      ∧ ((serveAll recorder ⟨⟨fun _ => Prog.done⟩⟩
          (List.replicate 2147483648
            ("1ms", freshSink, ⟨"GET", "127.0.0.1:51560", "/", ⟨[]⟩⟩))
          ⟨0, []⟩).map Globals.connIdx)[2147483646]? = some 2147483647
      ∧ ((serveAll recorder ⟨⟨fun _ => Prog.done⟩⟩
          (List.replicate 4294967297
            ("1ms", freshSink, ⟨"GET", "127.0.0.1:51560", "/", ⟨[]⟩⟩))
          ⟨0, []⟩).map Globals.connIdx)[4294967296]? = some 1
      ∧ ((serveAll recorder ⟨⟨fun _ => Prog.done⟩⟩
          (List.replicate 4294967297
            ("1ms", freshSink, ⟨"GET", "127.0.0.1:51560", "/", ⟨[]⟩⟩))
          ⟨0, []⟩).map Globals.connIdx)[0]? = some 1 := by
  rw [serveAll_connIdx, serveAll_connIdx, List.length_replicate, List.length_replicate,
    List.getElem?_map, List.getElem?_map, List.getElem?_map, List.getElem?_map,
    List.getElem?_range (by norm_num), List.getElem?_range (by norm_num),
    List.getElem?_range (by norm_num), List.getElem?_range (by norm_num)]
  refine ⟨?_, ?_, ?_, ?_⟩
  · show some (wrapInt32 _) = _
    norm_num [wrapInt32]
  · show some (wrapInt32 _) = _
    norm_num [wrapInt32]
  · show some (wrapInt32 _) = _
    norm_num [wrapInt32]
  · show some (wrapInt32 _) = _
    norm_num [wrapInt32]

/-- C6, amended: for at most `2 ^ 32` calls of `Handler.ServeHTTP`, in whatever order
they increment the counter starting at 0, every call leaves one id, the ids are pairwise
distinct, and the first `2 ^ 31 - 1` of them are 1, 2, 3, ... in increment order, strictly
increasing and without gap. The id a call logs in its start line is the counter value
that call stored. -/
theorem C6_ids_distinct_and_counting_up {σ : Type} (impl : SinkImpl σ) (h : Handler)
    (calls : List (String × Sink σ × Request)) (log0 : List String)
    (hN : calls.length ≤ 4294967296) :
    ((serveAll impl h calls ⟨0, log0⟩).map Globals.connIdx).length = calls.length
      ∧ ((serveAll impl h calls ⟨0, log0⟩).map Globals.connIdx).Nodup
      ∧ ((serveAll impl h calls ⟨0, log0⟩).map Globals.connIdx).take 2147483647
          = (List.range (min 2147483647 calls.length)).map (fun (k : Nat) => (k : Int) + 1)
      ∧ (((serveAll impl h calls ⟨0, log0⟩).map Globals.connIdx).take 2147483647).Pairwise
          (fun a b => a < b)
      ∧ ∀ (timeDur : String) (g : Globals) (w : Sink σ) (r : Request),
          (Handler.ServeHTTP impl h timeDur g w r).1.log[g.log.length]?
            = some ("[" ++ toString (Handler.ServeHTTP impl h timeDur g w r).1.connIdx
                ++ "] >>> " ++ r.Method ++ " - " ++ r.RemoteAddr ++ " - " ++ r.RequestURI) := by
  have hids := serveAll_connIdx impl h calls ⟨0, log0⟩
  have htake : ((serveAll impl h calls ⟨0, log0⟩).map Globals.connIdx).take 2147483647
      = (List.range (min 2147483647 calls.length)).map (fun (k : Nat) => (k : Int) + 1) := by
    rw [hids, ← List.map_take, List.take_range]
    apply List.map_congr_left
    intro k hk
    have hk2 : k < min 2147483647 calls.length := List.mem_range.mp hk
    have hk3 : k < 2147483647 := lt_of_lt_of_le hk2 (min_le_left _ _)
    show wrapInt32 (0 + ((k : Int) + 1)) = (k : Int) + 1
    rw [wrapInt32_small _ (by omega) (by omega)]
    ring
  refine ⟨?_, ?_, htake, ?_, ?_⟩
  · rw [hids, List.length_map, List.length_range]
  · rw [hids]
    apply List.Nodup.map_on _ (List.nodup_range _)
    intro x hx y hy hxy
    have hx2 : x < calls.length := List.mem_range.mp hx
    have hy2 : y < calls.length := List.mem_range.mp hy
    simp only [wrapInt32] at hxy
    omega
  · rw [htake, List.pairwise_map]
    exact (List.pairwise_lt_range _).imp (fun hab => by omega)
  · intro timeDur g w r
    rw [ServeHTTP_log, ServeHTTP_connIdx, List.getElem?_append_right (le_refl _),
      Nat.sub_self, List.getElem?_cons_zero]
    rfl

/-- Witness for C6: three calls. -/
theorem C6_ids_distinct_and_counting_up_witness :
    [("1.192874ms", freshSink, (⟨"GET", "127.0.0.1:51560", "/", ⟨[]⟩⟩ : Request)),
        ("60.777µs", freshSink, ⟨"GET", "127.0.0.1:51561", "/favicon.ico", ⟨[]⟩⟩),
        ("1ms", freshSink, ⟨"GET", "127.0.0.1:51562", "/", ⟨[]⟩⟩)].length ≤ 4294967296
      ∧ (serveAll recorder ⟨⟨serveIndexOnly⟩⟩
          [("1.192874ms", freshSink, ⟨"GET", "127.0.0.1:51560", "/", ⟨[]⟩⟩),
            ("60.777µs", freshSink, ⟨"GET", "127.0.0.1:51561", "/favicon.ico", ⟨[]⟩⟩),
            ("1ms", freshSink, ⟨"GET", "127.0.0.1:51562", "/", ⟨[]⟩⟩)]
          ⟨0, []⟩).map Globals.connIdx = [1, 2, 3]
      ∧ ((serveAll recorder ⟨⟨serveIndexOnly⟩⟩
          [("1.192874ms", freshSink, ⟨"GET", "127.0.0.1:51560", "/", ⟨[]⟩⟩),
            ("60.777µs", freshSink, ⟨"GET", "127.0.0.1:51561", "/favicon.ico", ⟨[]⟩⟩),
            ("1ms", freshSink, ⟨"GET", "127.0.0.1:51562", "/", ⟨[]⟩⟩)]
          ⟨0, []⟩).map Globals.connIdx).Nodup :=
  ⟨by decide, by decide,
    (C6_ids_distinct_and_counting_up recorder ⟨⟨serveIndexOnly⟩⟩
      [("1.192874ms", freshSink, ⟨"GET", "127.0.0.1:51560", "/", ⟨[]⟩⟩),
        ("60.777µs", freshSink, ⟨"GET", "127.0.0.1:51561", "/favicon.ico", ⟨[]⟩⟩),
        ("1ms", freshSink, ⟨"GET", "127.0.0.1:51562", "/", ⟨[]⟩⟩)]
      [] (by decide)).2.1⟩

/-- C7: the log after `Handler.ServeHTTP` is the log before it, then the one start line
`[id] >>> METHOD - remoteAddr - requestURI`, then the lines logged while the strategy ran,
then the one end line `[id] <<< status duration nbytes` with the same id, the value the
increment returned. Two requests in a row log `[1] >>>`, `[1] <<<`, `[2] >>>`, `[2] <<<`;
a line logged under the strategy's calls falls between the start and the end line. -/
theorem C7_one_start_line_then_one_end_line :
    (∀ (σ : Type) (impl : SinkImpl σ) (h : Handler) (timeDur : String) (g : Globals)
        (w : Sink σ) (r : Request),
      (Handler.ServeHTTP impl h timeDur g w r).1.log
        = g.log
          ++ ["[" ++ toString (AddInt32 g.connIdx 1).2 ++ "] >>> " ++ r.Method ++ " - "
                ++ r.RemoteAddr ++ " - " ++ r.RequestURI]
          ++ ((h.Server.Serve r).run (Sink.writer impl)
                { w with header := w.header.Add "Server" VERSION } []).2
          ++ ["[" ++ toString (AddInt32 g.connIdx 1).2 ++ "] <<< "
                ++ toString ((h.Server.Serve r).run (ResponseWriter.writer impl)
                    ⟨{ w with header := w.header.Add "Server" VERSION }, 0, 0⟩ []).1.Status
                ++ " " ++ timeDur ++ " "
                ++ toString ((h.Server.Serve r).run (ResponseWriter.writer impl)
                    ⟨{ w with header := w.header.Add "Server" VERSION }, 0, 0⟩ []).1.Length
                ++ "bytes"])
    ∧ (Handler.ServeHTTP recorder ⟨(MultiFileServer.mk serveIndexOnly).toServer⟩ "60.777µs"
          (Handler.ServeHTTP recorder ⟨(MultiFileServer.mk serveIndexOnly).toServer⟩
            "1.192874ms" ⟨0, []⟩ freshSink ⟨"GET", "127.0.0.1:51560", "/", ⟨[]⟩⟩).1
          freshSink ⟨"GET", "127.0.0.1:51561", "/favicon.ico", ⟨[]⟩⟩).1.log
        = ["[1] >>> GET - 127.0.0.1:51560 - /", "[1] <<< 200 1.192874ms 7bytes",
            "[2] >>> GET - 127.0.0.1:51561 - /favicon.ico", "[2] <<< 404 60.777µs 19bytes"]
    ∧ (Handler.ServeHTTP recorder
          ⟨⟨fun _ => .writeHeader 200 (.writeHeader 404
            (.log "http: superfluous response.WriteHeader call" .done))⟩⟩
          "1ms" ⟨41, []⟩ freshSink ⟨"GET", "127.0.0.1:51560", "/", ⟨[]⟩⟩).1.log
        = ["[42] >>> GET - 127.0.0.1:51560 - /", "http: superfluous response.WriteHeader call",
            "[42] <<< 404 1ms 0bytes"] := by
  refine ⟨?_, by decide, by decide⟩
  intro σ impl h timeDur g w r
  rw [ServeHTTP_log, ← (run_wrapper impl (h.Server.Serve r)
    ⟨{ w with header := w.header.Add "Server" VERSION }, 0, 0⟩ []).2]
  simp only [startLine, endLine, AddInt32, List.append_assoc, List.singleton_append,
    List.cons_append, List.nil_append]

/-- C9: when the strategy, run on the sink, makes exactly one status write `s` and then
one body write `p` of which the sink accepts all `n` bytes, whatever it does to the
headers or logs besides, the log after `Handler.ServeHTTP` is the log before, the start
line `[id] >>> ...`, the lines logged while the strategy ran, and the end line
`[id] <<< s duration nbytes` with the same id. -/
theorem C9_end_line_reports_status_and_bytes {σ : Type} (impl : SinkImpl σ) (h : Handler)
    (timeDur : String) (g : Globals) (w : Sink σ) (r : Request) (s : Int) (p : Bytes)
    (hcalls : (h.Server.Serve r).calls (Sink.writer impl)
        { w with header := w.header.Add "Server" VERSION }
      = [Call.status s, Call.body p p.length]) :
    (Handler.ServeHTTP impl h timeDur g w r).1.log
      = g.log
        ++ ["[" ++ toString (AddInt32 g.connIdx 1).2 ++ "] >>> " ++ r.Method ++ " - "
              ++ r.RemoteAddr ++ " - " ++ r.RequestURI]
        ++ ((h.Server.Serve r).run (Sink.writer impl)
              { w with header := w.header.Add "Server" VERSION } []).2
        ++ ["[" ++ toString (AddInt32 g.connIdx 1).2 ++ "] <<< " ++ toString s ++ " "
              ++ timeDur ++ " " ++ toString (p.length : Int) ++ "bytes"] := by
  have hcap := run_capture impl (h.Server.Serve r)
    ⟨{ w with header := w.header.Add "Server" VERSION }, 0, 0⟩ []
  simp only [hcalls, lastStatus, lastCount] at hcap
  rw [ServeHTTP_log, hcap.1, hcap.2, (run_wrapper impl (h.Server.Serve r)
    ⟨{ w with header := w.header.Add "Server" VERSION }, 0, 0⟩ []).2]
  simp only [startLine, endLine, AddInt32, List.append_assoc, List.singleton_append,
    List.cons_append, List.nil_append]

/-- Witness for C9: the 7 bytes of `index.html` served with status 200, and the 19 bytes
of the 404 text, which `http.Error` sends after setting two header fields. -/
theorem C9_end_line_reports_status_and_bytes_witness :
    ((serveIndexOnly ⟨"GET", "127.0.0.1:51561", "/favicon.ico", ⟨[]⟩⟩).calls
          (Sink.writer recorder) { freshSink with header := freshSink.header.Add "Server" VERSION }
        = [Call.status 404, Call.body (textBytes "404 page not found\n")
            (textBytes "404 page not found\n").length])
    ∧ (Handler.ServeHTTP recorder ⟨(MultiFileServer.mk serveIndexOnly).toServer⟩ "60.777µs"
          ⟨1, []⟩ freshSink ⟨"GET", "127.0.0.1:51561", "/favicon.ico", ⟨[]⟩⟩).1.log
        = [] ++ ["[" ++ toString (AddInt32 1 1).2 ++ "] >>> " ++ "GET" ++ " - "
              ++ "127.0.0.1:51561" ++ " - " ++ "/favicon.ico"]
          ++ ((serveIndexOnly ⟨"GET", "127.0.0.1:51561", "/favicon.ico", ⟨[]⟩⟩).run
                (Sink.writer recorder)
                { freshSink with header := freshSink.header.Add "Server" VERSION } []).2
          ++ ["[" ++ toString (AddInt32 1 1).2 ++ "] <<< " ++ toString (404 : Int) ++ " "
              ++ "60.777µs" ++ " "
              ++ toString ((textBytes "404 page not found\n").length : Int) ++ "bytes"]
    ∧ [] ++ ["[" ++ toString (AddInt32 1 1).2 ++ "] >>> " ++ "GET" ++ " - "
              ++ "127.0.0.1:51561" ++ " - " ++ "/favicon.ico"]
          ++ ((serveIndexOnly ⟨"GET", "127.0.0.1:51561", "/favicon.ico", ⟨[]⟩⟩).run
                (Sink.writer recorder)
                { freshSink with header := freshSink.header.Add "Server" VERSION } []).2
          ++ ["[" ++ toString (AddInt32 1 1).2 ++ "] <<< " ++ toString (404 : Int) ++ " "
              ++ "60.777µs" ++ " "
              ++ toString ((textBytes "404 page not found\n").length : Int) ++ "bytes"]
        = ["[2] >>> GET - 127.0.0.1:51561 - /favicon.ico", "[2] <<< 404 60.777µs 19bytes"] :=
  ⟨by decide,
    C9_end_line_reports_status_and_bytes recorder
      ⟨(MultiFileServer.mk serveIndexOnly).toServer⟩ "60.777µs" ⟨1, []⟩ freshSink
      ⟨"GET", "127.0.0.1:51561", "/favicon.ico", ⟨[]⟩⟩ 404 (textBytes "404 page not found\n")
      (by decide),
    by decide⟩

end HttpServer
